import Mathlib

/-!
Verification development for the VoxTube comment-clustering pipeline.

The repository's clustering engine (`src/utils/clustering.ts`, the cluster
Partitioner and Multi-Level Orchestrator) and the Vectorizer
(`src/utils/embeddings.ts`) are referenced by the pages but their sources are
not part of the checked-in tree; they are modelled here from the design
document (spec §4.2–§4.4).  The caller (`src/pages/Visualize.tsx`, `loadData`)
and the naming/story helpers (`src/utils/llm.ts`) are embedded directly from
their sources.

Numeric model: the TypeScript code computes with IEEE doubles.  We model
scalars as exact rationals (ℚ) and pass the real square root in as a function
parameter `rsqrt : ℚ → ℚ` (intended semantics `rsqrt q = √q`); all structural
theorems below hold for every choice of `rsqrt`, and concrete runs are
evaluated with `ratSqrt`, the exact rational square root, on inputs chosen so
that every square root taken during the run is rational (hence the run agrees
with real arithmetic).
-/

namespace VoxTube

/-- An embedding vector (spec §3: ordered fixed-length sequence of numbers). -/
abbrev Vec := List ℚ

/-- Dot product of two vectors. -/
def dotQ (a b : Vec) : ℚ := (List.zipWith (· * ·) a b).sum

/-- Squared Euclidean norm. -/
def normSq (v : Vec) : ℚ := dotQ v v

/-- Modelled from the spec (§4.2, glossary): cosine similarity = dot product
divided by the product of the magnitudes.  `clustering.ts` is not in the
repository; `rsqrt` stands for the real square root. -/
def cosSim (rsqrt : ℚ → ℚ) (a b : Vec) : ℚ :=
  dotQ a b / (rsqrt (normSq a) * rsqrt (normSq b))

/-- Modelled from the spec (§4.3 step 1): normalize a vector to unit length. -/
def normalize (rsqrt : ℚ → ℚ) (v : Vec) : Vec :=
  v.map (· / rsqrt (normSq v))

/-- Index of the largest element of a list (first occurrence on ties,
i.e. the spec's "lowest centroid index wins" tie-break).  Returns 0 on `[]`. -/
def argmax : List ℚ → ℕ
  | [] => 0
  | [_] => 0
  | a :: b :: rest =>
    let j := argmax (b :: rest)
    if (b :: rest).getD j 0 > a then j + 1 else 0

/-- Index of the smallest element of a list (first occurrence on ties).
Returns 0 on `[]`.  Used by the greedy farthest-point initialization. -/
def argmin : List ℚ → ℕ
  | [] => 0
  | [_] => 0
  | a :: b :: rest =>
    let j := argmin (b :: rest)
    if (b :: rest).getD j 0 < a then j + 1 else 0

/-- Maximum of a list of rationals (0 on `[]`, never used on `[]`). -/
def maxQ : List ℚ → ℚ
  | [] => 0
  | a :: as => as.foldl max a

/-- A group of comments found by one partitioning pass (spec §3 `Cluster`).
The spec calls the member field `memberIndices`; the checked-in caller
(`Visualize.tsx`) accesses it as `commentIndices`, which we keep. -/
structure Cluster where
  id : ℕ
  commentIndices : List ℕ
  confidence : ℚ
deriving DecidableEq, Inhabited

/-- Output of one partitioning pass (spec §3 `ClusterResult`). -/
structure ClusterResult where
  clusters : List Cluster
deriving DecidableEq, Inhabited

/-- Result of the Multi-Level Orchestrator (spec §4.4). -/
structure MultiLevelResult where
  fine : ClusterResult
  coarse : ClusterResult
deriving DecidableEq, Inhabited

/-- Modelled from the spec (§4.3 step 3): assign a vector to the centroid of
highest cosine similarity, ties broken towards the lowest centroid index. -/
def assignIdx (rsqrt : ℚ → ℚ) (cs : List Vec) (u : Vec) : ℕ :=
  argmax (cs.map (fun c => cosSim rsqrt u c))

/-- Componentwise vector sum. -/
def addVec (a b : Vec) : Vec := List.zipWith (· + ·) a b

/-- Componentwise mean of a non-empty list of vectors (`[]` on `[]`). -/
def meanVec (vs : List Vec) : Vec :=
  match vs with
  | [] => []
  | v :: rest => (rest.foldl addVec v).map (· / (vs.length : ℚ))

/-- Modelled from the spec (§4.3 steps 3–4): group the vector indices by their
assigned centroid and drop groups left with zero members. -/
def groupsOf (rsqrt : ℚ → ℚ) (us : List Vec) (cs : List Vec) : List (List ℕ) :=
  ((List.range cs.length).map
      (fun k => (List.range us.length).filter
        (fun i => assignIdx rsqrt cs (us.getD i []) == k))).filter
    (fun g => !g.isEmpty)

/-- Modelled from the spec (§4.3 step 3, glossary): centroid of a group =
normalized mean of its member vectors. -/
def centroidOf (rsqrt : ℚ → ℚ) (us : List Vec) (g : List ℕ) : Vec :=
  normalize rsqrt (meanVec (g.map (fun i => us.getD i [])))

/-- Modelled from the spec (§4.3 step 3): iterate assignment/recompute until
the grouping stops changing or the fuel (iteration cap, 50) runs out. -/
def kmeansLoop (rsqrt : ℚ → ℚ) (us : List Vec) :
    ℕ → List Vec → List (List ℕ) → List (List ℕ)
  | 0, _, prev => prev
  | fuel + 1, cs, prev =>
    let gs := groupsOf rsqrt us cs
    if gs = prev then gs
    else kmeansLoop rsqrt us fuel (gs.map (centroidOf rsqrt us)) gs

/-- Modelled from the spec (§4.3 step 2): seeded deterministic greedy
farthest-point selection; each new centroid is the remaining point with the
lowest maximum similarity to the already chosen ones (first index on ties). -/
def farthestInit (rsqrt : ℚ → ℚ) (us : List Vec) :
    ℕ → List ℕ → List ℕ
  | 0, chosen => chosen
  | fuel + 1, chosen =>
    let remaining := (List.range us.length).filter (fun i => !chosen.contains i)
    if remaining.isEmpty then chosen
    else
      let scores := remaining.map
        (fun i => maxQ (chosen.map (fun j => cosSim rsqrt (us.getD i []) (us.getD j []))))
      farthestInit rsqrt us fuel (chosen ++ [remaining.getD (argmin scores) 0])

/-- Modelled from the spec (§4.3 step 2): the first centroid is the vector at
the fixed index 0; the remaining `k - 1` are chosen greedily. -/
def initCentroids (rsqrt : ℚ → ℚ) (us : List Vec) (k : ℕ) : List Vec :=
  (farthestInit rsqrt us (k - 1) [0]).map (fun i => us.getD i [])

/-- Clamp a rational into `[0, 1]`. -/
def clamp01 (q : ℚ) : ℚ := max 0 (min 1 q)

/-- Modelled from the spec (§4.3 step 5): confidence of a final cluster =
mean member-to-centroid cosine similarity clamped to `[0,1]`; a singleton
cluster has confidence 1 by convention. -/
def confidenceOf (rsqrt : ℚ → ℚ) (us : List Vec) (g : List ℕ) : ℚ :=
  if g.length = 1 then 1
  else
    clamp01
      (((g.map (fun i => cosSim rsqrt (us.getD i []) (centroidOf rsqrt us g))).sum) /
        (g.length : ℚ))

/-- Modelled from the spec (§4.3): the cluster Partitioner.  `clustering.ts`
is absent from the repository; this follows the spec's algorithm: normalize,
deterministic seeding, iterate with cap 50, drop empty clusters, ids assigned
in survival order, confidence per final cluster.  K is clamped to `[1, N]`. -/
def partition (rsqrt : ℚ → ℚ) (vs : List Vec) (k : ℕ) : ClusterResult :=
  if vs.isEmpty then ⟨[]⟩
  else
    let us := vs.map (normalize rsqrt)
    let kk := max 1 (min k vs.length)
    let gs := kmeansLoop rsqrt us 50 (initCentroids rsqrt us kk) []
    ⟨((List.range gs.length).zip gs).map
      (fun p => ⟨p.1, p.2, confidenceOf rsqrt us p.2⟩)⟩

/-- Modelled from the spec (§4.3): fine granularity policy, K close to
N/4..8; we use ⌈N/6⌉ clamped to `[1, N]`. -/
def fineK (n : ℕ) : ℕ := min n (max 1 ((n + 5) / 6))

/-- Modelled from the spec (§4.3): coarse granularity policy
K ≈ max(2, min(8, ⌈N/20⌉)), clamped to `[1, N]`. -/
def coarseK (n : ℕ) : ℕ := min n (max 2 (min 8 ((n + 19) / 20)))

/-- Modelled from the spec (§4.4): the Multi-Level Orchestrator runs the
Partitioner twice on the identical vector sequence with the two policies. -/
def getMultiLevelClusters (rsqrt : ℚ → ℚ) (vs : List Vec) : MultiLevelResult :=
  ⟨partition rsqrt vs (fineK vs.length), partition rsqrt vs (coarseK vs.length)⟩

/-- Largest `r ≤ k` with `r * r ≤ n` (structural recursion so that concrete
runs reduce inside the kernel). -/
def isqrtDown (n : ℕ) : ℕ → ℕ
  | 0 => 0
  | k + 1 => if (k + 1) * (k + 1) ≤ n then k + 1 else isqrtDown n k

/-- Integer square root (exact on perfect squares). -/
def isqrt (n : ℕ) : ℕ := isqrtDown n n

/-- Exact rational square root: `√q` when `q` is a square of a rational,
0 otherwise.  Counterexample/witness inputs below are chosen so that every
square root taken during their runs is of the first kind. -/
def ratSqrt (q : ℚ) : ℚ :=
  let a := q.num.toNat
  let b := q.den
  let sa := isqrt a
  let sb := isqrt b
  if sa * sa = a ∧ sb * sb = b ∧ 0 ≤ q.num then (sa : ℚ) / (sb : ℚ) else 0

/-! ### `src/utils/llm.ts` -/

/-- `ClusterName` (llm.ts lines 10–14).  `clusterId` is ℤ because it can come
from arbitrary service-returned JSON numbers. -/
structure ClusterName where
  clusterId : ℤ
  name : String
  confidence : ℚ
deriving DecidableEq, Inhabited

/-- Input element of `generateClusterNames` (llm.ts line 34). -/
structure NameClusterIn where
  id : ℕ
  comments : List String
deriving DecidableEq, Inhabited

/-- One entry of the JSON array a successful naming call yields (llm.ts
line 75): every field may be missing (JS `undefined`). -/
structure NameItem where
  clusterId : Option ℤ
  cluster_id : Option ℤ
  name : Option String
  confidence : Option ℚ
deriving DecidableEq, Inhabited

/-- Outcome of the naming-service call in `generateClusterNames`:
the call throws (network / quota / JSON.parse failure), returns no content,
returns a JSON payload that is not an array (after the
`parsed.clusters || parsed.names || parsed` fallbacks), or returns an array. -/
inductive NameResp
  | err
  | noContent
  | nonArray
  | arr (items : List NameItem)
deriving DecidableEq, Inhabited

/-- JS `x ?? y` on an optional value. -/
def nullish {α : Type} (x : Option α) (y : α) : α := x.getD y

/-- JS `s || y` for strings: the empty string is falsy. -/
def strOrElse (x : Option String) (y : String) : String :=
  match x with
  | none => y
  | some s => if s = "" then y else s

/-- `generateClusterNames` (llm.ts lines 33–87) with the service call's
outcome passed in as `resp`.  Mirrors: empty input short-circuits to `[]`;
no content / non-array payload / thrown error all fall back to one
`{clusterId: c.id, name: 'unnamed feeling', confidence: 0.5}` per input
cluster; an array payload is mapped entrywise with per-field defaults. -/
def generateClusterNames (clusters : List NameClusterIn) (resp : NameResp) :
    List ClusterName :=
  if clusters.isEmpty then []
  else
    match resp with
    | .err => clusters.map (fun c => ⟨(c.id : ℤ), "unnamed feeling", 1/2⟩)
    | .noContent => clusters.map (fun c => ⟨(c.id : ℤ), "unnamed feeling", 1/2⟩)
    | .nonArray => clusters.map (fun c => ⟨(c.id : ℤ), "unnamed feeling", 1/2⟩)
    | .arr items =>
      ((List.range items.length).zip items).map
        (fun p =>
          ⟨nullish p.2.clusterId
              (nullish p.2.cluster_id
                (nullish ((clusters.get? p.1).map (fun c => (c.id : ℤ))) (p.1 : ℤ))),
            strOrElse p.2.name "unnamed feeling",
            nullish p.2.confidence (7/10)⟩)

/-- `StoryComment` (llm.ts lines 23–27); also the shape of the input records
of `detectStoryComments` (llm.ts line 215), which has the same three fields. -/
structure StoryComment where
  text : String
  authorDisplayName : String
  authorProfileImageUrl : Option String
deriving DecidableEq, Inhabited

/-- Outcome of the story-detection service call: the call (or JSON.parse, or
the subsequent mapping) throws, returns no content, or yields a parsed
`story_indices` array (`parsed.story_indices || []` makes a missing field
the empty array). -/
inductive StoryResp
  | err
  | noContent
  | indices (l : List ℤ)
deriving DecidableEq, Inhabited

/-- `detectStoryComments` (llm.ts lines 214–279) with the service outcome
passed in as `resp`.  Mirrors: empty input → `[]`; sample = first 100
comments; thrown error → `[]`; no content → `[]`; otherwise keep indices in
`[0, sample.length)`, truncate to 10, and map each back to the full comment
record. -/
def detectStoryComments (comments : List StoryComment) (resp : StoryResp) :
    List StoryComment :=
  if comments.isEmpty then []
  else
    let sample := comments.take 100
    match resp with
    | .err => []
    | .noContent => []
    | .indices l =>
      (((l.filter (fun i => 0 ≤ i && i < (sample.length : ℤ))).take 10).map
        (fun i => sample.getD i.toNat default))

/-! ### `src/pages/Visualize.tsx` (`loadData`) -/

/-- The error states `Visualize.tsx` can enter (line 65). -/
inductive ErrorType
  | noComments
  | videoNotFound
  | generic
deriving DecidableEq, Inhabited

/-- The slice of `VideoDetails` that `loadData` consumes. -/
structure VideoDetails where
  title : String
  commentCountRaw : ℕ
deriving DecidableEq, Inhabited

/-- A raw comment (`fetchComments` output). -/
structure Comment where
  text : String
  authorName : String
  authorProfileImageUrl : Option String
  likeCount : ℕ
deriving DecidableEq, Inhabited

/-- `CommentWithEmbedding` (embeddings.ts): a comment plus its embedding;
an empty `embedding` signals "embedding unavailable" (spec §3). -/
structure CommentWithEmbedding where
  text : String
  authorName : String
  authorProfileImageUrl : Option String
  likeCount : ℕ
  embedding : List ℚ
deriving DecidableEq, Inhabited

/-- Everything `loadData` (Visualize.tsx lines 123–205) consumes: the results
its awaited external calls resolve with, plus the value the `cancelled` flag
has at each `if (cancelled) return` check.  `c1` is read after
`fetchVideoById`, `c2` after `fetchComments`, `c3` after `embedComments`
(lines 129/140/148; the check after the synchronous `getMultiLevelClusters`
call at line 162 reads the same unchanged flag, since no `await` lies
between), `c4` after `generateClusterNames`, `c5` after
`generateProseSummary`, `c6` after `detectStoryComments`.  `embedThrows`
models `embedComments` rejecting, which the surrounding try/catch turns into
the generic error. -/
structure LoadInput where
  videoData : Option VideoDetails
  rawComments : List Comment
  embedThrows : Bool
  embedResult : List CommentWithEmbedding
  c1 : Bool
  c2 : Bool
  c3 : Bool
  c4 : Bool
  c5 : Bool
  c6 : Bool
  nameResp : NameResp
  summaryResult : String
  storyResp : StoryResp
deriving Inhabited

/-- The component state `loadData` leaves behind, plus a flag recording
whether `getMultiLevelClusters` was invoked during the run. -/
structure LoadOutcome where
  errorType : Option ErrorType := none
  video : Option VideoDetails := none
  comments : List CommentWithEmbedding := []
  fine : Option ClusterResult := none
  coarse : Option ClusterResult := none
  clusterNames : List ClusterName := []
  proseSummary : Option String := none
  stories : List StoryComment := []
  invokedClustering : Bool := false
deriving DecidableEq, Inhabited

/-- The `clustersForNaming` computation (Visualize.tsx lines 167–170):
per coarse cluster, the texts of its member comments, looked up in the
(filtered) comment list, empty/missing texts dropped. -/
def clustersForNaming (valid : List CommentWithEmbedding) (coarse : ClusterResult) :
    List NameClusterIn :=
  coarse.clusters.map
    (fun c =>
      ⟨c.id,
        (c.commentIndices.map
          (fun i => strOrElse ((valid.get? i).map (fun v => v.text)) "")).filter
          (fun t => t ≠ "")⟩)

/-- `loadData` (Visualize.tsx lines 123–205), embedded as a function from the
results of its external calls (and the observed cancellation flags) to the
final component state.  Stage by stage it mirrors the source: fetch video
(null → `videoNotFound`), fetch comments (empty → `noComments`), embed
(`setComments`), filter out empty embeddings (none valid → `generic`),
`setComments(validComments)`, cluster, name, summarize, detect stories; every
`if (cancelled) return` keeps the state built so far. -/
def loadData (rsqrt : ℚ → ℚ) (inp : LoadInput) : LoadOutcome :=
  if inp.c1 then {}
  else
    match inp.videoData with
    | none => { errorType := some .videoNotFound }
    | some vd =>
      if inp.c2 then { video := some vd }
      else if inp.rawComments.isEmpty then
        { video := some vd, errorType := some .noComments }
      else if inp.embedThrows then
        (if inp.c3 then { video := some vd }
         else { video := some vd, errorType := some .generic })
      else if inp.c3 then { video := some vd }
      else
        let embedded := inp.embedResult
        let valid := embedded.filter (fun c => !c.embedding.isEmpty)
        let embeddings := valid.map (fun c => c.embedding)
        if embeddings.isEmpty then
          { video := some vd, comments := embedded, errorType := some .generic }
        else
          let ml := getMultiLevelClusters rsqrt embeddings
          if inp.c3 then
            { video := some vd, comments := valid, invokedClustering := true }
          else
            let names := generateClusterNames (clustersForNaming valid ml.coarse) inp.nameResp
            if inp.c4 then
              { video := some vd, comments := valid, invokedClustering := true,
                fine := some ml.fine, coarse := some ml.coarse }
            else if inp.c5 then
              { video := some vd, comments := valid, invokedClustering := true,
                fine := some ml.fine, coarse := some ml.coarse, clusterNames := names }
            else
              let stories := detectStoryComments
                (valid.map (fun c => ⟨c.text, c.authorName, c.authorProfileImageUrl⟩))
                inp.storyResp
              if inp.c6 then
                { video := some vd, comments := valid, invokedClustering := true,
                  fine := some ml.fine, coarse := some ml.coarse, clusterNames := names,
                  proseSummary := some inp.summaryResult }
              else
                { video := some vd, comments := valid, invokedClustering := true,
                  fine := some ml.fine, coarse := some ml.coarse, clusterNames := names,
                  proseSummary := some inp.summaryResult, stories := stories }

/-! ### Helper lemmas: the grouping step is a partition -/

theorem argmax_lt (l : List ℚ) (h : l ≠ []) : argmax l < l.length := by
  match l with
  | [_] => simp [argmax]
  | a :: b :: rest =>
    have ih := argmax_lt (b :: rest) (by simp)
    simp only [argmax]
    split
    · simpa using ih
    · simp

theorem assignIdx_lt (rsqrt : ℚ → ℚ) (cs : List Vec) (u : Vec) (h : cs ≠ []) :
    assignIdx rsqrt cs u < cs.length := by
  have := argmax_lt (cs.map (fun c => cosSim rsqrt u c)) (by simpa using h)
  simpa [assignIdx] using this

theorem count_range_eq (x n : ℕ) :
    List.count x (List.range n) = if x < n then 1 else 0 := by
  induction n with
  | zero => simp
  | succ m ih =>
    rw [List.range_succ, List.count_append, ih]
    by_cases h : x = m
    · subst h
      simp [List.count_singleton]
    · rw [List.count_singleton']
      have h' : ¬ m = x := fun e => h e.symm
      rw [if_neg h']
      split <;> split <;> omega

theorem sum_map_range_ite (x : ℕ) (c : ℕ) (m : ℕ) :
    ((List.range m).map (fun k => if x = k then c else 0)).sum =
      if x < m then c else 0 := by
  induction m with
  | zero => simp
  | succ p ih =>
    rw [List.range_succ, List.map_append, List.sum_append, ih]
    by_cases h : x = p
    · subst h
      simp
    · have : ¬ (x < p + 1) ∨ x < p := by omega
      simp only [List.map_singleton, List.sum_singleton, h, if_false]
      rcases this with h' | h'
      · have : ¬ x < p := by omega
        simp [h', this]
      · simp [h', Nat.lt_succ_of_lt h']

theorem count_filter_eq_ite (x k : ℕ) (a : ℕ → ℕ) (l : List ℕ) :
    List.count x (l.filter (fun i => a i == k)) =
      if a x = k then List.count x l else 0 := by
  by_cases h : a x = k
  · rw [if_pos h, List.count_filter (by simpa using h)]
  · rw [if_neg h, List.count_eq_zero]
    intro hmem
    have := List.mem_filter.mp hmem
    simp only [beq_iff_eq] at this
    exact h this.2

theorem flatten_filter_isEmpty (l : List (List ℕ)) :
    (l.filter (fun g => !g.isEmpty)).flatten = l.flatten := by
  induction l with
  | nil => rfl
  | cons g rest ih =>
    by_cases h : g.isEmpty
    · have hg : g = [] := List.isEmpty_iff.mp h
      subst hg
      simpa [List.filter_cons] using ih
    · simp only [List.filter_cons, h, Bool.not_false, List.flatten_cons]
      simp only [List.isEmpty_eq_false_iff_exists_mem] at h
      simp [List.flatten_cons, ih,
        show (!g.isEmpty) = true by simpa using (by simpa using h : g ≠ [])]

theorem flatten_groups_perm (a : ℕ → ℕ) (n m : ℕ) (ha : ∀ i, a i < m) :
    (((List.range m).map (fun k => (List.range n).filter (fun i => a i == k))).flatten).Perm
      (List.range n) := by
  rw [List.perm_iff_count]
  intro x
  rw [List.count_flatten, List.map_map]
  have hmap :
      ((List.range m).map
        (List.count x ∘ fun k => (List.range n).filter (fun i => a i == k))) =
      (List.range m).map (fun k => if a x = k then List.count x (List.range n) else 0) := by
    apply List.map_congr_left
    intro k _
    exact count_filter_eq_ite x k a (List.range n)
  rw [hmap, sum_map_range_ite (a x) (List.count x (List.range n)) m, if_pos (ha x)]

/-- `gs` is a list of groups that partitions the index range `[0, n)`:
every group is non-empty and the concatenation of the groups enumerates each
index in `[0, n)` exactly once. -/
def GoodG (n : ℕ) (gs : List (List ℕ)) : Prop :=
  (∀ g ∈ gs, g ≠ []) ∧ gs.flatten.Perm (List.range n)

theorem groupsOf_good (rsqrt : ℚ → ℚ) (us cs : List Vec) (hcs : cs ≠ []) :
    GoodG us.length (groupsOf rsqrt us cs) := by
  constructor
  · intro g hg
    have := (List.mem_filter.mp hg).2
    simpa using this
  · rw [groupsOf, flatten_filter_isEmpty]
    exact flatten_groups_perm (fun i => assignIdx rsqrt cs (us.getD i []))
      us.length cs.length (fun i => assignIdx_lt rsqrt cs (us.getD i []) hcs)

theorem GoodG.groups_ne_nil {n : ℕ} {gs : List (List ℕ)} (h : GoodG n gs)
    (hn : n ≠ 0) : gs ≠ [] := by
  intro hgs
  subst hgs
  have := h.2.symm.length_eq
  simp [List.length_range] at this
  exact hn this

theorem kmeansLoop_good (rsqrt : ℚ → ℚ) (us : List Vec) (hus : us ≠ []) :
    ∀ (fuel : ℕ) (cs : List Vec) (prev : List (List ℕ)), cs ≠ [] →
      (GoodG us.length prev ∨ 1 ≤ fuel) →
      GoodG us.length (kmeansLoop rsqrt us fuel cs prev) := by
  intro fuel
  induction fuel with
  | zero =>
    intro cs prev hcs hprev
    rcases hprev with h | h
    · exact h
    · omega
  | succ f ih =>
    intro cs prev hcs hprev
    simp only [kmeansLoop]
    have hgs : GoodG us.length (groupsOf rsqrt us cs) := groupsOf_good rsqrt us cs hcs
    have hn0 : us.length ≠ 0 := by simpa using hus
    have hne : groupsOf rsqrt us cs ≠ [] := hgs.groups_ne_nil hn0
    split
    · exact hgs
    · exact ih ((groupsOf rsqrt us cs).map (centroidOf rsqrt us))
        (groupsOf rsqrt us cs) (by simpa using hne) (Or.inl hgs)

theorem farthestInit_ne_nil (rsqrt : ℚ → ℚ) (us : List Vec) :
    ∀ (fuel : ℕ) (chosen : List ℕ), chosen ≠ [] →
      farthestInit rsqrt us fuel chosen ≠ [] := by
  intro fuel
  induction fuel with
  | zero => intro chosen h; simpa [farthestInit] using h
  | succ f ih =>
    intro chosen h
    simp only [farthestInit]
    split
    · exact h
    · exact ih _ (by simp)

theorem initCentroids_ne_nil (rsqrt : ℚ → ℚ) (us : List Vec) (k : ℕ) :
    initCentroids rsqrt us k ≠ [] := by
  unfold initCentroids
  simpa using farthestInit_ne_nil rsqrt us (k - 1) [0] (by simp)

theorem map_mk_zip_range (gs : List (List ℕ)) (conf : List ℕ → ℚ) :
    ((((List.range gs.length).zip gs).map
      (fun p => (⟨p.1, p.2, conf p.2⟩ : Cluster))).map (fun c => c.commentIndices)) = gs := by
  rw [List.map_map]
  have hcomp : ((fun c => c.commentIndices) ∘ fun p => (⟨p.1, p.2, conf p.2⟩ : Cluster)) =
      (Prod.snd : ℕ × List ℕ → List ℕ) := rfl
  rw [hcomp]
  exact List.map_snd_zip _ _ (by simp)

theorem partition_good (rsqrt : ℚ → ℚ) (vs : List Vec) (k : ℕ) (h : vs ≠ []) :
    GoodG vs.length ((partition rsqrt vs k).clusters.map (fun c => c.commentIndices)) := by
  have hus : vs.map (normalize rsqrt) ≠ [] := by simpa using h
  unfold partition
  rw [if_neg (by simpa using h)]
  simp only
  rw [map_mk_zip_range]
  have := kmeansLoop_good rsqrt (vs.map (normalize rsqrt)) hus 50
    (initCentroids rsqrt (vs.map (normalize rsqrt)) (max 1 (min k vs.length))) []
    (initCentroids_ne_nil _ _ _) (Or.inr (by omega))
  simpa [List.length_map] using this

theorem count_le_one_disjoint (gs : List (List ℕ))
    (h : ∀ x, gs.flatten.count x ≤ 1) :
    List.Pairwise (fun g₁ g₂ => ∀ x ∈ g₁, x ∉ g₂) gs := by
  induction gs with
  | nil => exact List.Pairwise.nil
  | cons g rest ih =>
    constructor
    · intro g' hg' x hxg hxg'
      have h1 : ¬ (List.count x g = 0) := fun e => (List.count_eq_zero.mp e) hxg
      have h2 : ¬ (List.count x rest.flatten = 0) := fun e =>
        (List.count_eq_zero.mp e) (List.mem_flatten.mpr ⟨g', hg', hxg'⟩)
      have h3 := h x
      rw [List.flatten_cons, List.count_append] at h3
      omega
    · apply ih
      intro x
      have h3 := h x
      rw [List.flatten_cons, List.count_append] at h3
      omega

/-! ### Claim theorems -/

/-- C1: for every ClusterResult produced by a partitioning pass over N input
vectors, the member-index lists of its clusters are non-empty, pairwise
disjoint, and their concatenation enumerates the index range `[0, N)` with
every index appearing in exactly one cluster. -/
theorem partition_isPartition (rsqrt : ℚ → ℚ) (vs : List Vec) (k : ℕ)
    (hvs : vs ≠ []) :
    (∀ c ∈ (partition rsqrt vs k).clusters, c.commentIndices ≠ []) ∧
    (((partition rsqrt vs k).clusters.map (fun c => c.commentIndices)).flatten).Perm
      (List.range vs.length) ∧
    List.Pairwise (fun g₁ g₂ => ∀ x ∈ g₁, x ∉ g₂)
      ((partition rsqrt vs k).clusters.map (fun c => c.commentIndices)) := by
  have hg := partition_good rsqrt vs k hvs
  refine ⟨?_, hg.2, ?_⟩
  · intro c hc
    exact hg.1 _ (List.mem_map_of_mem _ hc)
  · apply count_le_one_disjoint
    intro x
    rw [hg.2.count_eq]
    rw [count_range_eq]
    split <;> omega

/-- Witness for C1: the partition invariant evaluated on a concrete
two-vector input. -/
theorem partition_isPartition_witness :
    ([[(1:ℚ), 0], [0, 1]] : List Vec) ≠ [] ∧
    ((∀ c ∈ (partition ratSqrt [[(1:ℚ), 0], [0, 1]] 2).clusters,
        c.commentIndices ≠ []) ∧
      (((partition ratSqrt [[(1:ℚ), 0], [0, 1]] 2).clusters.map
          (fun c => c.commentIndices)).flatten).Perm
        (List.range ([[(1:ℚ), 0], [0, 1]] : List Vec).length) ∧
      List.Pairwise (fun g₁ g₂ => ∀ x ∈ g₁, x ∉ g₂)
        ((partition ratSqrt [[(1:ℚ), 0], [0, 1]] 2).clusters.map
          (fun c => c.commentIndices))) :=
  ⟨by simp, partition_isPartition ratSqrt [[(1:ℚ), 0], [0, 1]] 2 (by simp)⟩

theorem partition_confidence_shape (rsqrt : ℚ → ℚ) (vs : List Vec) (k : ℕ) :
    ∀ c ∈ (partition rsqrt vs k).clusters,
      c.confidence = confidenceOf rsqrt (vs.map (normalize rsqrt)) c.commentIndices := by
  intro c hc
  unfold partition at hc
  split at hc
  · simp at hc
  · obtain ⟨p, hp, rfl⟩ := List.mem_map.mp hc
    rfl

theorem confidenceOf_unit (rsqrt : ℚ → ℚ) (us : List Vec) (g : List ℕ) :
    0 ≤ confidenceOf rsqrt us g ∧ confidenceOf rsqrt us g ≤ 1 := by
  unfold confidenceOf
  split
  · exact ⟨zero_le_one, le_refl 1⟩
  · unfold clamp01
    exact ⟨le_max_left 0 _, max_le zero_le_one (min_le_left 1 _)⟩

/-- C6: every cluster's confidence lies in `[0, 1]`, and every singleton
cluster (exactly one member) reports confidence exactly 1. -/
theorem partition_confidence_bounds (rsqrt : ℚ → ℚ) (vs : List Vec) (k : ℕ) :
    ∀ c ∈ (partition rsqrt vs k).clusters,
      0 ≤ c.confidence ∧ c.confidence ≤ 1 ∧
        (c.commentIndices.length = 1 → c.confidence = 1) := by
  intro c hc
  rw [partition_confidence_shape rsqrt vs k c hc]
  refine ⟨(confidenceOf_unit rsqrt _ _).1, (confidenceOf_unit rsqrt _ _).2, ?_⟩
  intro h1
  simp [confidenceOf, h1]

/-- Witness for C6 at a concrete input: the single cluster of a one-vector
run has confidence 1 within bounds. -/
theorem partition_confidence_bounds_witness :
    (⟨0, [0], 1⟩ : Cluster) ∈ (partition ratSqrt [[(1:ℚ), 0]] 1).clusters ∧
    (0 ≤ (⟨0, [0], 1⟩ : Cluster).confidence ∧
      (⟨0, [0], 1⟩ : Cluster).confidence ≤ 1 ∧
      ((⟨0, [0], 1⟩ : Cluster).commentIndices.length = 1 →
        (⟨0, [0], 1⟩ : Cluster).confidence = 1)) :=
  ⟨by with_unfolding_all decide,
    partition_confidence_bounds ratSqrt [[(1:ℚ), 0]] 1 ⟨0, [0], 1⟩
      (by with_unfolding_all decide)⟩

/-- C5: calling the Partitioner twice with identical input vectors in the
same order yields an identical partition and identical per-cluster
confidences (the model's seeding and iteration are deterministic; there is no
per-run randomness). -/
theorem partition_deterministic (rsqrt : ℚ → ℚ) (vs₁ vs₂ : List Vec) (k : ℕ)
    (h : vs₁ = vs₂) :
    (partition rsqrt vs₁ k).clusters.map (fun c => c.commentIndices) =
      (partition rsqrt vs₂ k).clusters.map (fun c => c.commentIndices) ∧
    (partition rsqrt vs₁ k).clusters.map (fun c => c.confidence) =
      (partition rsqrt vs₂ k).clusters.map (fun c => c.confidence) := by
  subst h
  exact ⟨rfl, rfl⟩

/-- Witness for C5: two runs on the same concrete input agree. -/
theorem partition_deterministic_witness :
    ([[(1:ℚ), 0], [0, 1]] : List Vec) = [[(1:ℚ), 0], [0, 1]] ∧
    ((partition ratSqrt [[(1:ℚ), 0], [0, 1]] 2).clusters.map
        (fun c => c.commentIndices) =
      (partition ratSqrt [[(1:ℚ), 0], [0, 1]] 2).clusters.map
        (fun c => c.commentIndices) ∧
      (partition ratSqrt [[(1:ℚ), 0], [0, 1]] 2).clusters.map
        (fun c => c.confidence) =
      (partition ratSqrt [[(1:ℚ), 0], [0, 1]] 2).clusters.map
        (fun c => c.confidence)) :=
  ⟨rfl, partition_deterministic ratSqrt [[(1:ℚ), 0], [0, 1]]
    [[(1:ℚ), 0], [0, 1]] 2 rfl⟩

theorem groupsOf_length_le (rsqrt : ℚ → ℚ) (us cs : List Vec) :
    (groupsOf rsqrt us cs).length ≤ cs.length := by
  calc (groupsOf rsqrt us cs).length
      ≤ ((List.range cs.length).map
          (fun k => (List.range us.length).filter
            (fun i => assignIdx rsqrt cs (us.getD i []) == k))).length :=
        List.length_filter_le _ _
    _ = cs.length := by simp

theorem kmeansLoop_length_le (rsqrt : ℚ → ℚ) (us : List Vec) :
    ∀ (fuel : ℕ) (cs : List Vec) (prev : List (List ℕ)),
      (kmeansLoop rsqrt us fuel cs prev).length ≤ max cs.length prev.length := by
  intro fuel
  induction fuel with
  | zero => intro cs prev; simp [kmeansLoop]
  | succ f ih =>
    intro cs prev
    simp only [kmeansLoop]
    have hg := groupsOf_length_le rsqrt us cs
    split
    · omega
    · have := ih ((groupsOf rsqrt us cs).map (centroidOf rsqrt us)) (groupsOf rsqrt us cs)
      simp only [List.length_map, max_self] at this
      omega

theorem farthestInit_length_le (rsqrt : ℚ → ℚ) (us : List Vec) :
    ∀ (fuel : ℕ) (chosen : List ℕ),
      (farthestInit rsqrt us fuel chosen).length ≤ chosen.length + fuel := by
  intro fuel
  induction fuel with
  | zero => intro chosen; simp [farthestInit]
  | succ f ih =>
    intro chosen
    simp only [farthestInit]
    split
    · omega
    · have := ih (chosen ++ [((List.range us.length).filter
        (fun i => !chosen.contains i)).getD
          (argmin ((((List.range us.length).filter (fun i => !chosen.contains i))).map
            (fun i => maxQ (chosen.map
              (fun j => cosSim rsqrt (us.getD i []) (us.getD j [])))))) 0])
      simp only [List.length_append, List.length_singleton] at this
      omega

theorem partition_length_le (rsqrt : ℚ → ℚ) (vs : List Vec) (k : ℕ) :
    (partition rsqrt vs k).clusters.length ≤ max 1 (min k vs.length) := by
  unfold partition
  split
  · simp
  · simp only [List.length_map, List.length_zip, List.length_range, min_self]
    have h1 := kmeansLoop_length_le rsqrt (vs.map (normalize rsqrt)) 50
      (initCentroids rsqrt (vs.map (normalize rsqrt)) (max 1 (min k vs.length))) []
    have h2 : (initCentroids rsqrt (vs.map (normalize rsqrt))
        (max 1 (min k vs.length))).length ≤ max 1 (min k vs.length) := by
      unfold initCentroids
      rw [List.length_map]
      have := farthestInit_length_le rsqrt (vs.map (normalize rsqrt))
        (max 1 (min k vs.length) - 1) [0]
      simp only [List.length_singleton] at this
      omega
    simp only [List.length_nil] at h1
    omega

/-- C7 counterexample: on a concrete three-vector input (every square root
taken during the run is rational, so the run agrees with real arithmetic)
the fine policy targets ⌈3/6⌉ = 1 group while the coarse policy's floor of 2
targets 2, and the final results have 1 fine cluster but 2 coarse clusters:
the coarse count exceeds the fine count. -/
theorem granularity_not_monotone_cex :
    (getMultiLevelClusters ratSqrt [[1, 0], [7/25, 24/25], [-1, 0]]).fine.clusters.length = 1 ∧
    (getMultiLevelClusters ratSqrt [[1, 0], [7/25, 24/25], [-1, 0]]).coarse.clusters.length = 2 ∧
    ¬ ((getMultiLevelClusters ratSqrt
          [[1, 0], [7/25, 24/25], [-1, 0]]).coarse.clusters.length ≤
        (getMultiLevelClusters ratSqrt
          [[1, 0], [7/25, 24/25], [-1, 0]]).fine.clusters.length) := by
  with_unfolding_all decide

/-- C7 (amended): for N ≥ 12 the coarse policy's target group count is at
most the fine policy's target, and each result's cluster count is bounded by
its policy target; for smaller N (where the coarse floor of 2 exceeds the
fine target ⌈N/6⌉) the coarse result can have more clusters than the fine
result, as the counterexample shows. -/
theorem cluster_count_policy_bound (rsqrt : ℚ → ℚ) (vs : List Vec)
    (h : 12 ≤ vs.length) :
    coarseK vs.length ≤ fineK vs.length ∧
    (getMultiLevelClusters rsqrt vs).coarse.clusters.length ≤ coarseK vs.length ∧
    (getMultiLevelClusters rsqrt vs).fine.clusters.length ≤ fineK vs.length := by
  have h1 : coarseK vs.length ≤ fineK vs.length := by
    unfold coarseK fineK
    omega
  have h2 := partition_length_le rsqrt vs (coarseK vs.length)
  have h3 := partition_length_le rsqrt vs (fineK vs.length)
  have hc : max 1 (min (coarseK vs.length) vs.length) = coarseK vs.length := by
    unfold coarseK
    omega
  have hf : max 1 (min (fineK vs.length) vs.length) = fineK vs.length := by
    unfold fineK
    omega
  exact ⟨h1, by rw [← hc]; exact h2, by rw [← hf]; exact h3⟩

/-- Witness for C7 (amended) at a concrete 12-vector input. -/
theorem cluster_count_policy_bound_witness :
    12 ≤ (List.replicate 12 ([(1:ℚ), 0] : Vec)).length ∧
    (coarseK (List.replicate 12 ([(1:ℚ), 0] : Vec)).length ≤
        fineK (List.replicate 12 ([(1:ℚ), 0] : Vec)).length ∧
      (getMultiLevelClusters ratSqrt
          (List.replicate 12 ([(1:ℚ), 0] : Vec))).coarse.clusters.length ≤
        coarseK (List.replicate 12 ([(1:ℚ), 0] : Vec)).length ∧
      (getMultiLevelClusters ratSqrt
          (List.replicate 12 ([(1:ℚ), 0] : Vec))).fine.clusters.length ≤
        fineK (List.replicate 12 ([(1:ℚ), 0] : Vec)).length) :=
  ⟨by simp, cluster_count_policy_bound ratSqrt
    (List.replicate 12 ([(1:ℚ), 0] : Vec)) (by simp)⟩

theorem partition_index_lt (rsqrt : ℚ → ℚ) (vs : List Vec) (k : ℕ) (h : vs ≠ []) :
    ∀ c ∈ (partition rsqrt vs k).clusters, ∀ i ∈ c.commentIndices, i < vs.length := by
  intro c hc i hi
  have hg := (partition_good rsqrt vs k h).2
  have hmem : i ∈ ((partition rsqrt vs k).clusters.map
      (fun c => c.commentIndices)).flatten :=
    List.mem_flatten.mpr ⟨c.commentIndices, List.mem_map_of_mem _ hc, hi⟩
  exact List.mem_range.mp (hg.mem_iff.mp hmem)

/-- The valid (non-empty-embedding) sub-sequence `loadData` filters out
(Visualize.tsx line 152). -/
def validOf (inp : LoadInput) : List CommentWithEmbedding :=
  inp.embedResult.filter (fun c => !c.embedding.isEmpty)

theorem loadData_happy_fields (rsqrt : ℚ → ℚ) (inp : LoadInput) (vd : VideoDetails)
    (h1 : inp.c1 = false) (h2 : inp.c2 = false) (h3 : inp.c3 = false)
    (hv : inp.videoData = some vd) (hr : inp.rawComments.isEmpty = false)
    (ht : inp.embedThrows = false) (hvalid : validOf inp ≠ []) :
    (loadData rsqrt inp).comments = validOf inp ∧
    (loadData rsqrt inp).errorType = none ∧
    (loadData rsqrt inp).invokedClustering = true ∧
    (loadData rsqrt inp).fine =
      some (getMultiLevelClusters rsqrt ((validOf inp).map (fun c => c.embedding))).fine ∧
    (loadData rsqrt inp).coarse =
      some (getMultiLevelClusters rsqrt ((validOf inp).map (fun c => c.embedding))).coarse := by
  have hmap : (((validOf inp).map (fun c => c.embedding)).isEmpty) = false := by
    rw [List.isEmpty_eq_false_iff_exists_mem]
    rcases List.exists_mem_of_ne_nil _ hvalid with ⟨x, hx⟩
    exact ⟨x.embedding, List.mem_map_of_mem _ hx⟩
  unfold loadData
  rw [h1, hv]
  simp only [Bool.false_eq_true, if_false]
  rw [h2, hr, ht, h3]
  simp only [Bool.false_eq_true, if_false]
  unfold validOf at hmap
  rw [hmap]
  simp only [Bool.false_eq_true, if_false]
  cases hc4 : inp.c4 <;> cases hc5 : inp.c5 <;> cases hc6 : inp.c6 <;>
    simp [validOf]

theorem loadData_no_valid_fields (rsqrt : ℚ → ℚ) (inp : LoadInput) (vd : VideoDetails)
    (h1 : inp.c1 = false) (h2 : inp.c2 = false) (h3 : inp.c3 = false)
    (hv : inp.videoData = some vd) (hr : inp.rawComments.isEmpty = false)
    (ht : inp.embedThrows = false) (hvalid : validOf inp = []) :
    (loadData rsqrt inp).errorType = some .generic ∧
    (loadData rsqrt inp).invokedClustering = false ∧
    (loadData rsqrt inp).fine = none ∧ (loadData rsqrt inp).coarse = none := by
  have hmap : (((validOf inp).map (fun c => c.embedding)).isEmpty) = true := by
    rw [hvalid]
    rfl
  unfold loadData
  rw [h1, hv]
  simp only [Bool.false_eq_true, if_false]
  rw [h2, hr, ht, h3]
  simp only [Bool.false_eq_true, if_false]
  unfold validOf at hmap
  rw [hmap]
  simp

/-- Concrete `loadData` input for C2: two comments, only the second embeds. -/
def inpC2 : LoadInput :=
  ⟨some ⟨"v", 2⟩, [⟨"first", "alice", none, 0⟩, ⟨"second", "bob", none, 0⟩],
    false, [⟨"first", "alice", none, 0, []⟩, ⟨"second", "bob", none, 0, [1, 0]⟩],
    false, false, false, false, false, false, .err, "", .err⟩

/-- C2 counterexample: with two comments of which only the second embeds, the
produced fine result's only cluster carries member index 0, yet the comment
at original position 0 is the unembeddable one; the valid comment's original
position 1 appears in no cluster.  Member indices are positions in the
filtered sequence, not original positions — the claim's "indices are not
renumbered" fails. -/
theorem clusters_renumbered_cex :
    (loadData ratSqrt inpC2).fine = some ⟨[⟨0, [0], 1⟩]⟩ ∧
    (inpC2.embedResult.getD 0 default).embedding = [] ∧
    (inpC2.embedResult.getD 1 default).embedding = [1, 0] ∧
    (loadData ratSqrt inpC2).comments.getD 0 default =
      inpC2.embedResult.getD 1 default := by
  with_unfolding_all decide

/-- C2 (amended): after filtering out empty-embedding entries the clustering
step runs over the filtered sequence, so member indices are renumbered to
positions in that filtered sequence; traceability back to a Comment is
preserved because `loadData` replaces its comment state with the same
filtered sequence and every member index is a valid position in it. -/
theorem loadData_clusters_over_filtered (rsqrt : ℚ → ℚ) (inp : LoadInput)
    (vd : VideoDetails)
    (h1 : inp.c1 = false) (h2 : inp.c2 = false) (h3 : inp.c3 = false)
    (hv : inp.videoData = some vd) (hr : inp.rawComments.isEmpty = false)
    (ht : inp.embedThrows = false) (hvalid : validOf inp ≠ []) :
    (loadData rsqrt inp).comments = validOf inp ∧
    (loadData rsqrt inp).fine =
      some (getMultiLevelClusters rsqrt ((validOf inp).map (fun c => c.embedding))).fine ∧
    (loadData rsqrt inp).coarse =
      some (getMultiLevelClusters rsqrt ((validOf inp).map (fun c => c.embedding))).coarse ∧
    (∀ r, (loadData rsqrt inp).fine = some r ∨ (loadData rsqrt inp).coarse = some r →
      ∀ c ∈ r.clusters, ∀ i ∈ c.commentIndices,
        i < ((loadData rsqrt inp).comments).length) := by
  obtain ⟨hcom, _, _, hfine, hcoarse⟩ :=
    loadData_happy_fields rsqrt inp vd h1 h2 h3 hv hr ht hvalid
  have hvs : (validOf inp).map (fun c => c.embedding) ≠ [] := by
    intro e
    exact hvalid (List.map_eq_nil_iff.mp e)
  refine ⟨hcom, hfine, hcoarse, ?_⟩
  intro r hsome c hc i hi
  have hlen : ((validOf inp).map (fun c => c.embedding)).length = (validOf inp).length :=
    List.length_map _ _
  rw [hcom]
  rcases hsome with hs | hs
  · rw [hfine] at hs
    have hr' : r = partition rsqrt ((validOf inp).map (fun c => c.embedding))
        (fineK ((validOf inp).map (fun c => c.embedding)).length) := by
      injection hs.symm
    subst hr'
    have := partition_index_lt rsqrt _ _ hvs c hc i hi
    omega
  · rw [hcoarse] at hs
    have hr' : r = partition rsqrt ((validOf inp).map (fun c => c.embedding))
        (coarseK ((validOf inp).map (fun c => c.embedding)).length) := by
      injection hs.symm
    subst hr'
    have := partition_index_lt rsqrt _ _ hvs c hc i hi
    omega

/-- Witness for C2 (amended) on the concrete input `inpC2`. -/
theorem loadData_clusters_over_filtered_witness :
    (inpC2.c1 = false ∧ inpC2.c2 = false ∧ inpC2.c3 = false ∧
      inpC2.videoData = some ⟨"v", 2⟩ ∧ inpC2.rawComments.isEmpty = false ∧
      inpC2.embedThrows = false ∧ validOf inpC2 ≠ []) ∧
    ((loadData ratSqrt inpC2).comments = validOf inpC2 ∧
      (loadData ratSqrt inpC2).fine =
        some (getMultiLevelClusters ratSqrt
          ((validOf inpC2).map (fun c => c.embedding))).fine ∧
      (loadData ratSqrt inpC2).coarse =
        some (getMultiLevelClusters ratSqrt
          ((validOf inpC2).map (fun c => c.embedding))).coarse ∧
      (∀ r, (loadData ratSqrt inpC2).fine = some r ∨
          (loadData ratSqrt inpC2).coarse = some r →
        ∀ c ∈ r.clusters, ∀ i ∈ c.commentIndices,
          i < ((loadData ratSqrt inpC2).comments).length)) :=
  ⟨⟨rfl, rfl, rfl, rfl, rfl, rfl, by with_unfolding_all decide⟩,
    loadData_clusters_over_filtered ratSqrt inpC2 ⟨"v", 2⟩ rfl rfl rfl rfl rfl rfl
      (by with_unfolding_all decide)⟩

/-- Concrete `loadData` input for C3: one comment whose embedding failed
(empty vector), service call itself succeeded. -/
def inpC3a : LoadInput :=
  ⟨some ⟨"v", 1⟩, [⟨"first", "alice", none, 0⟩], false,
    [⟨"first", "alice", none, 0, []⟩],
    false, false, false, false, false, false, .err, "", .err⟩

/-- Concrete `loadData` input for C3: the embedding call itself throws. -/
def inpC3b : LoadInput :=
  ⟨some ⟨"v", 1⟩, [⟨"first", "alice", none, 0⟩], true, [],
    false, false, false, false, false, false, .err, "", .err⟩

/-- C3 counterexample: zero valid embedded comments is surfaced as
`ErrorType.generic` ("Something went wrong"), the very same error state that a
thrown (transient) embedding failure produces — not a distinct "nothing to
cluster" condition, so the two are indistinguishable to the caller. -/
theorem nothing_to_cluster_not_distinct_cex :
    (loadData ratSqrt inpC3a).errorType = some .generic ∧
    (loadData ratSqrt inpC3b).errorType = some .generic ∧
    (loadData ratSqrt inpC3a).errorType = (loadData ratSqrt inpC3b).errorType := by
  with_unfolding_all decide

/-- C3 (amended): when zero valid embedded comments reach the clustering
step, `loadData` surfaces an error state without invoking the clustering step
and without setting any cluster state, and that state is distinct from the
no-comments and video-not-found conditions; however it is the generic
condition shared with transient failures, not a dedicated "nothing to
cluster" condition. -/
theorem loadData_empty_valid_generic (rsqrt : ℚ → ℚ) (inp : LoadInput)
    (vd : VideoDetails)
    (h1 : inp.c1 = false) (h2 : inp.c2 = false) (h3 : inp.c3 = false)
    (hv : inp.videoData = some vd) (hr : inp.rawComments.isEmpty = false)
    (ht : inp.embedThrows = false) (hvalid : validOf inp = []) :
    (loadData rsqrt inp).errorType = some .generic ∧
    (loadData rsqrt inp).invokedClustering = false ∧
    (loadData rsqrt inp).fine = none ∧
    (ErrorType.generic ≠ ErrorType.noComments ∧
      ErrorType.generic ≠ ErrorType.videoNotFound) := by
  obtain ⟨he, hi, hf, _⟩ :=
    loadData_no_valid_fields rsqrt inp vd h1 h2 h3 hv hr ht hvalid
  exact ⟨he, hi, hf, by simp, by simp⟩

/-- Witness for C3 (amended) on the concrete input `inpC3a`. -/
theorem loadData_empty_valid_generic_witness :
    (inpC3a.c1 = false ∧ inpC3a.c2 = false ∧ inpC3a.c3 = false ∧
      inpC3a.videoData = some ⟨"v", 1⟩ ∧ inpC3a.rawComments.isEmpty = false ∧
      inpC3a.embedThrows = false ∧ validOf inpC3a = []) ∧
    ((loadData ratSqrt inpC3a).errorType = some .generic ∧
      (loadData ratSqrt inpC3a).invokedClustering = false ∧
      (loadData ratSqrt inpC3a).fine = none ∧
      (ErrorType.generic ≠ ErrorType.noComments ∧
        ErrorType.generic ≠ ErrorType.videoNotFound)) :=
  ⟨⟨rfl, rfl, rfl, rfl, rfl, rfl, by with_unfolding_all decide⟩,
    loadData_empty_valid_generic ratSqrt inpC3a ⟨"v", 1⟩ rfl rfl rfl rfl rfl rfl
      (by with_unfolding_all decide)⟩

/-- C4: once the run reaches the embedding stage (video found, comments
present, no throw, not cancelled), the presence of at least one valid
embedding guarantees the pipeline proceeds to clustering over the valid
subset with no error state; the stage's total-failure error is produced
exactly when no valid embedding exists at all. -/
theorem loadData_degraded_over_total (rsqrt : ℚ → ℚ) (inp : LoadInput)
    (vd : VideoDetails)
    (h1 : inp.c1 = false) (h2 : inp.c2 = false) (h3 : inp.c3 = false)
    (hv : inp.videoData = some vd) (hr : inp.rawComments.isEmpty = false)
    (ht : inp.embedThrows = false) :
    (validOf inp ≠ [] →
      (loadData rsqrt inp).errorType = none ∧
      (loadData rsqrt inp).invokedClustering = true ∧
      (loadData rsqrt inp).fine =
        some (getMultiLevelClusters rsqrt
          ((validOf inp).map (fun c => c.embedding))).fine ∧
      (loadData rsqrt inp).coarse =
        some (getMultiLevelClusters rsqrt
          ((validOf inp).map (fun c => c.embedding))).coarse) ∧
    (validOf inp = [] →
      (loadData rsqrt inp).errorType = some .generic ∧
      (loadData rsqrt inp).invokedClustering = false) := by
  constructor
  · intro hvalid
    obtain ⟨_, he, hi, hf, hc⟩ :=
      loadData_happy_fields rsqrt inp vd h1 h2 h3 hv hr ht hvalid
    exact ⟨he, hi, hf, hc⟩
  · intro hvalid
    obtain ⟨he, hi, _, _⟩ :=
      loadData_no_valid_fields rsqrt inp vd h1 h2 h3 hv hr ht hvalid
    exact ⟨he, hi⟩

/-- Concrete `loadData` input for C4: two comments, one valid embedding. -/
def inpC4 : LoadInput :=
  ⟨some ⟨"v", 2⟩, [⟨"first", "alice", none, 0⟩, ⟨"second", "bob", none, 0⟩],
    false, [⟨"first", "alice", none, 0, [1, 0]⟩, ⟨"second", "bob", none, 0, []⟩],
    false, false, false, false, false, false, .err, "", .err⟩

/-- Witness for C4 on the concrete input `inpC4` (one of two embeddings
valid: degraded result, no failure). -/
theorem loadData_degraded_over_total_witness :
    (inpC4.c1 = false ∧ inpC4.c2 = false ∧ inpC4.c3 = false ∧
      inpC4.videoData = some ⟨"v", 2⟩ ∧ inpC4.rawComments.isEmpty = false ∧
      inpC4.embedThrows = false) ∧
    ((validOf inpC4 ≠ [] →
        (loadData ratSqrt inpC4).errorType = none ∧
        (loadData ratSqrt inpC4).invokedClustering = true ∧
        (loadData ratSqrt inpC4).fine =
          some (getMultiLevelClusters ratSqrt
            ((validOf inpC4).map (fun c => c.embedding))).fine ∧
        (loadData ratSqrt inpC4).coarse =
          some (getMultiLevelClusters ratSqrt
            ((validOf inpC4).map (fun c => c.embedding))).coarse) ∧
      (validOf inpC4 = [] →
        (loadData ratSqrt inpC4).errorType = some .generic ∧
        (loadData ratSqrt inpC4).invokedClustering = false)) :=
  ⟨⟨rfl, rfl, rfl, rfl, rfl, rfl⟩,
    loadData_degraded_over_total ratSqrt inpC4 ⟨"v", 2⟩ rfl rfl rfl rfl rfl rfl⟩

/-- C8: if the analysis is cancelled before the embedding step returns — so
the cancellation flag reads true at the post-embedding check — the clustering
step is never invoked on that run and no cluster state is set. -/
theorem cancelled_no_clustering (rsqrt : ℚ → ℚ) (inp : LoadInput)
    (h : inp.c3 = true) :
    (loadData rsqrt inp).invokedClustering = false ∧
    (loadData rsqrt inp).fine = none ∧
    (loadData rsqrt inp).coarse = none := by
  unfold loadData
  cases hc1 : inp.c1
  · simp only [Bool.false_eq_true, if_false]
    cases hv : inp.videoData
    · simp
    · cases hc2 : inp.c2
      · simp only [Bool.false_eq_true, if_false]
        cases hre : inp.rawComments.isEmpty
        · simp only [Bool.false_eq_true, if_false]
          cases hth : inp.embedThrows
          · simp only [Bool.false_eq_true, if_false]
            rw [h]
            simp
          · simp only [if_true]
            rw [h]
            simp
        · simp
      · simp
  · simp

/-- Concrete `loadData` input for C8: cancellation observed at the
post-embedding check. -/
def inpC8 : LoadInput :=
  ⟨some ⟨"v", 1⟩, [⟨"first", "alice", none, 0⟩], false,
    [⟨"first", "alice", none, 0, [1, 0]⟩],
    false, false, true, false, false, false, .err, "", .err⟩

/-- Witness for C8 on the concrete input `inpC8`. -/
theorem cancelled_no_clustering_witness :
    inpC8.c3 = true ∧
    ((loadData ratSqrt inpC8).invokedClustering = false ∧
      (loadData ratSqrt inpC8).fine = none ∧
      (loadData ratSqrt inpC8).coarse = none) :=
  ⟨rfl, cancelled_no_clustering ratSqrt inpC8 rfl⟩

/-- C9: `detectStoryComments` resolves with at most 10 story comments, each
copied verbatim (all three fields) from one of the first 100 input comments
(service-returned indices outside `[0, min(100, length))` having been
discarded); empty input resolves with the empty list, and a service error (or
missing content) resolves with the empty list rather than rejecting. -/
theorem detectStoryComments_spec (comments : List StoryComment) (resp : StoryResp) :
    (detectStoryComments comments resp).length ≤ 10 ∧
    (∀ s ∈ detectStoryComments comments resp, s ∈ comments.take 100) ∧
    (comments = [] → detectStoryComments comments resp = []) ∧
    (resp = .err → detectStoryComments comments resp = []) ∧
    (resp = .noContent → detectStoryComments comments resp = []) := by
  unfold detectStoryComments
  by_cases hemp : comments.isEmpty
  · simp [hemp]
  · simp only [hemp, Bool.false_eq_true, if_false]
    have hne : comments ≠ [] := by
      intro e
      subst e
      simp at hemp
    rcases resp with _ | _ | l
    · refine ⟨by simp, by simp, fun h => absurd h hne, fun _ => rfl, ?_⟩
      intro h
      cases h
    · refine ⟨by simp, by simp, fun h => absurd h hne, ?_, fun _ => rfl⟩
      intro h
      cases h
    · refine ⟨?_, ?_, fun h => absurd h hne, ?_, ?_⟩
      · calc (((l.filter (fun i => 0 ≤ i && i < ((comments.take 100).length : ℤ))).take
              10).map (fun i => (comments.take 100).getD i.toNat default)).length
            = ((l.filter (fun i => 0 ≤ i && i < ((comments.take 100).length : ℤ))).take
              10).length := List.length_map _ _
          _ ≤ 10 := List.length_take_le _ _
      · intro s hs
        obtain ⟨i, hi, rfl⟩ := List.mem_map.mp hs
        have hi' : i ∈ l.filter
            (fun i => 0 ≤ i && i < ((comments.take 100).length : ℤ)) :=
          List.mem_of_mem_take hi
        have hb := (List.mem_filter.mp hi').2
        simp only [Bool.and_eq_true, decide_eq_true_eq] at hb
        have hlt : i.toNat < (comments.take 100).length := by
          omega
        rw [List.getD_eq_getElem _ _ hlt]
        exact List.getElem_mem _
      · intro h
        cases h
      · intro h
        cases h

/-- Witness for C9: the specification instantiated at a concrete comment list
and a service response containing in-range, out-of-range and negative
indices. -/
theorem detectStoryComments_spec_witness :
    (detectStoryComments [⟨"this reminds me of 2008", "ann", none⟩]
        (.indices [0, 5, -1])).length ≤ 10 ∧
    (∀ s ∈ detectStoryComments [⟨"this reminds me of 2008", "ann", none⟩]
        (.indices [0, 5, -1]),
      s ∈ ([⟨"this reminds me of 2008", "ann", none⟩] :
        List StoryComment).take 100) ∧
    (([⟨"this reminds me of 2008", "ann", none⟩] : List StoryComment) = [] →
      detectStoryComments [⟨"this reminds me of 2008", "ann", none⟩]
        (.indices [0, 5, -1]) = []) ∧
    ((StoryResp.indices [0, 5, -1]) = .err →
      detectStoryComments [⟨"this reminds me of 2008", "ann", none⟩]
        (.indices [0, 5, -1]) = []) ∧
    ((StoryResp.indices [0, 5, -1]) = .noContent →
      detectStoryComments [⟨"this reminds me of 2008", "ann", none⟩]
        (.indices [0, 5, -1]) = []) :=
  detectStoryComments_spec [⟨"this reminds me of 2008", "ann", none⟩]
    (.indices [0, 5, -1])

theorem zip_map_self {α β : Type} (f : α → β) (l : List α) :
    ∀ p ∈ (l.map f).zip l, p.1 = f p.2 := by
  induction l with
  | nil => simp
  | cons a t ih =>
    intro p hp
    rcases List.mem_cons.mp hp with h | h
    · subst h
      rfl
    · exact ih p h

/-- C10: `generateClusterNames` never rejects: if the naming-service call
throws, returns no content, or returns a payload that is not an array, it
resolves with exactly one ClusterName per input cluster whose clusterId is
that cluster's id, whose name is "unnamed feeling" and whose confidence is
0.5; empty input resolves with the empty list. -/
theorem generateClusterNames_fallback (clusters : List NameClusterIn)
    (resp : NameResp)
    (h : resp = .err ∨ resp = .noContent ∨ resp = .nonArray) :
    (generateClusterNames clusters resp).length = clusters.length ∧
    (∀ p ∈ (generateClusterNames clusters resp).zip clusters,
      p.1.clusterId = (p.2.id : ℤ) ∧ p.1.name = "unnamed feeling" ∧
        p.1.confidence = 1/2) ∧
    (clusters = [] → generateClusterNames clusters resp = []) := by
  have hres : generateClusterNames clusters resp =
      if clusters.isEmpty then []
      else clusters.map (fun c => ⟨(c.id : ℤ), "unnamed feeling", 1/2⟩) := by
    rcases h with h | h | h <;> subst h <;> rfl
  rw [hres]
  by_cases hemp : clusters.isEmpty
  · have : clusters = [] := List.isEmpty_iff.mp hemp
    subst this
    simp
  · have hne : clusters ≠ [] := fun e => hemp (by simp [e])
    simp only [hemp, Bool.false_eq_true, if_false]
    refine ⟨List.length_map _ _, ?_, fun e => absurd e hne⟩
    intro p hp
    have := zip_map_self (fun c => (⟨(c.id : ℤ), "unnamed feeling", 1/2⟩ : ClusterName))
      clusters p hp
    rw [this]
    exact ⟨rfl, rfl, rfl⟩

/-- Witness for C10: the fallback evaluated at a concrete cluster list and a
throwing service call. -/
theorem generateClusterNames_fallback_witness :
    ((NameResp.err = NameResp.err ∨ NameResp.err = .noContent ∨
        NameResp.err = .nonArray)) ∧
    ((generateClusterNames [⟨3, ["great song"]⟩] .err).length =
        ([⟨3, ["great song"]⟩] : List NameClusterIn).length ∧
      (∀ p ∈ (generateClusterNames [⟨3, ["great song"]⟩] .err).zip
          ([⟨3, ["great song"]⟩] : List NameClusterIn),
        p.1.clusterId = (p.2.id : ℤ) ∧ p.1.name = "unnamed feeling" ∧
          p.1.confidence = 1/2) ∧
      (([⟨3, ["great song"]⟩] : List NameClusterIn) = [] →
        generateClusterNames [⟨3, ["great song"]⟩] .err = [])) :=
  ⟨Or.inl rfl,
    generateClusterNames_fallback [⟨3, ["great song"]⟩] .err (Or.inl rfl)⟩

end VoxTube
